import Mathlib

/-!
Shallow embedding of `kakarot_scripts/ef_tests/debug.py`: the EF-test
debugging harness that loads a test vector, seeds an anvil node with the
pre-state, replays the block's transactions in order, and checks the
post-state account by account.

External collaborators (the web3 provider, the checksum function, the JSON
parser, the directory listing) are passed in as parameters or modelled as
structures of query functions; the Python control flow and the arithmetic
on hex strings are translated directly.
-/

namespace KakarotDebug

/-! ### Hexadecimal primitives

`hexDigitVal` is the value of one hex digit character.  `pyIntHex` models
Python `int(s, 16)` on the inputs this script feeds it (an optional
`0x`/`0X` prefix followed by hex digits; sign, whitespace and underscore
forms never occur here and are not modelled).  `bytesFromHex` models
`bytes.fromhex`, and `intFromBytesBig` models `int.from_bytes(_, "big")`.
-/

def hexDigitVal (c : Char) : Option Nat :=
  if '0' ≤ c ∧ c ≤ '9' then some (c.toNat - '0'.toNat)
  else if 'a' ≤ c ∧ c ≤ 'f' then some (c.toNat - 'a'.toNat + 10)
  else if 'A' ≤ c ∧ c ≤ 'F' then some (c.toNat - 'A'.toNat + 10)
  else none

def parseHexAux (acc : Nat) : List Char → Option Nat
  | [] => some acc
  | c :: cs =>
    match hexDigitVal c with
    | none => none
    | some d => parseHexAux (16 * acc + d) cs

/-- Parse a nonempty run of hex digits (the part of `int(s, 16)` after the
optional prefix). -/
def pyIntHexBody (body : List Char) : Option Nat :=
  if body.isEmpty then none else parseHexAux 0 body

def pyIntHex (s : String) : Option Nat :=
  if s.data.take 2 = ['0', 'x'] ∨ s.data.take 2 = ['0', 'X'] then pyIntHexBody (s.data.drop 2)
  else pyIntHexBody s.data

def bytesFromHexAux : List Char → Option (List Nat)
  | [] => some []
  | [_] => none
  | c1 :: c2 :: rest =>
    match hexDigitVal c1, hexDigitVal c2, bytesFromHexAux rest with
    | some hi, some lo, some bs => some ((16 * hi + lo) :: bs)
    | _, _, _ => none

def bytesFromHex (s : String) : Option (List Nat) :=
  bytesFromHexAux s.data

def intFromBytesBig (bs : List Nat) : Nat :=
  bs.foldl (fun acc b => 256 * acc + b) 0

/-! ### Post-state data model

An expected account in `postState` carries its balance, nonce and code as
hex strings and its storage as an ordered association list (Python dicts
iterate in insertion order).  `Env` is the web3 query surface used by
`check_post_state`: `get_balance`, `get_transaction_count`, `get_code`
(bytes) and `get_storage_at` (bytes, later fed to `int.from_bytes`).
-/

structure Account where
  balance : String
  nonce : String
  code : String
  storage : List (String × String)
deriving DecidableEq

structure Env where
  getBalance : String → Nat
  getTransactionCount : String → Nat
  getCode : String → List Nat
  getStorageAt : String → String → List Nat

/-- The data carried by the per-field assertion messages in
`check_post_state`: which field failed, the expected value and the live
(actual) value.  Storage mismatches also carry the key. -/
inductive Mismatch where
  | balance (expected actual : Nat)
  | nonce (expected actual : Nat)
  | code (expected actual : List Nat)
  | storage (key : String) (expected actual : Nat)
deriving DecidableEq

/-- An error raised by `check_post_state`.  `stateMismatch` is the
`ValueError("Post state does not match for {address}, got {e}")` wrapping
a failed assertion; `parseError` is the same `ValueError` wrapping an
exception from `int(_, 16)` or `bytes.fromhex` on the literal carried. -/
inductive PostStateError where
  | stateMismatch (address : String) (m : Mismatch)
  | parseError (address : String) (literal : String)
deriving DecidableEq

/-- The storage loop of `check_post_state`: for each `(k, v)` assert
`int.from_bytes(w3.eth.get_storage_at(address, k), "big") == int(v, 16)`,
stopping at the first failure. -/
def checkStorage (env : Env) (a : String) : List (String × String) → Except PostStateError Unit
  | [] => .ok ()
  | (k, v) :: rest =>
    match pyIntHex v with
    | none => .error (.parseError a v)
    | some ev =>
      if intFromBytesBig (env.getStorageAt a k) = ev then checkStorage env a rest
      else .error (.stateMismatch a (.storage k ev (intFromBytesBig (env.getStorageAt a k))))

/-- The body of the `try` block of `check_post_state` for one account:
assert balance, then nonce, then code, then each storage slot, raising at
the first failing assertion. -/
def checkAccount (env : Env) (a : String) (acct : Account) : Except PostStateError Unit :=
  match pyIntHex acct.balance with
  | none => .error (.parseError a acct.balance)
  | some eb =>
    if env.getBalance a = eb then
      match pyIntHex acct.nonce with
      | none => .error (.parseError a acct.nonce)
      | some en =>
        if env.getTransactionCount a = en then
          match bytesFromHex (acct.code.drop 2) with
          | none => .error (.parseError a acct.code)
          | some ec =>
            if env.getCode a = ec then checkStorage env a acct.storage
            else .error (.stateMismatch a (.code ec (env.getCode a)))
        else .error (.stateMismatch a (.nonce en (env.getTransactionCount a)))
    else .error (.stateMismatch a (.balance eb (env.getBalance a)))

/-- `check_post_state`: iterate over `postState` in order; checksum the
address (`chk` is `Web3.to_checksum_address`, external); skip the entry
when it equals the checksummed `BEACON_ROOT_ADDRESS` (`beacon`); otherwise
check the account, raising out of the loop on the first failure. -/
def check_post_state (chk : String → String) (beacon : String) (env : Env) :
    List (String × Account) → Except PostStateError Unit
  | [] => .ok ()
  | (addr, acct) :: rest =>
    if chk addr = chk beacon then check_post_state chk beacon env rest
    else
      match checkAccount env (chk addr) acct with
      | .ok _ => check_post_state chk beacon env rest
      | .error e => .error e

/-! ### Spec-side description of the verifier's outcome

Following the spec's words: for each account (system address excluded),
each field in order — balance, nonce, code, then each named storage slot —
either matches the live value or contributes a mismatch record; the
verifier fails with the first mismatching field of the first mismatching
account and succeeds when there is none. -/

def balanceErrors (env : Env) (a : String) (acct : Account) : List PostStateError :=
  match pyIntHex acct.balance with
  | none => [.parseError a acct.balance]
  | some eb =>
    if env.getBalance a = eb then []
    else [.stateMismatch a (.balance eb (env.getBalance a))]

def nonceErrors (env : Env) (a : String) (acct : Account) : List PostStateError :=
  match pyIntHex acct.nonce with
  | none => [.parseError a acct.nonce]
  | some en =>
    if env.getTransactionCount a = en then []
    else [.stateMismatch a (.nonce en (env.getTransactionCount a))]

def codeErrors (env : Env) (a : String) (acct : Account) : List PostStateError :=
  match bytesFromHex (acct.code.drop 2) with
  | none => [.parseError a acct.code]
  | some ec =>
    if env.getCode a = ec then []
    else [.stateMismatch a (.code ec (env.getCode a))]

def storageEntryErrors (env : Env) (a k v : String) : List PostStateError :=
  match pyIntHex v with
  | none => [.parseError a v]
  | some ev =>
    if intFromBytesBig (env.getStorageAt a k) = ev then []
    else [.stateMismatch a (.storage k ev (intFromBytesBig (env.getStorageAt a k)))]

def storageErrors (env : Env) (a : String) : List (String × String) → List PostStateError
  | [] => []
  | (k, v) :: rest => storageEntryErrors env a k v ++ storageErrors env a rest

/-- All mismatching fields of one account, in field order. -/
def accountErrors (env : Env) (a : String) (acct : Account) : List PostStateError :=
  balanceErrors env a acct ++ nonceErrors env a acct ++ codeErrors env a acct ++
    storageErrors env a acct.storage

/-- The first mismatching field of the first mismatching non-system
account, if any. -/
def firstPostStateError (chk : String → String) (beacon : String) (env : Env)
    (ps : List (String × Account)) : Option PostStateError :=
  (ps.filter (fun p => !decide (chk p.1 = chk beacon))).findSome?
    (fun p => (accountErrors env (chk p.1) p.2).head?)

theorem checkStorage_eq_errors (env : Env) (a : String) (l : List (String × String)) :
    checkStorage env a l =
      match (storageErrors env a l).head? with
      | none => .ok ()
      | some e => .error e := by
  induction l with
  | nil => rfl
  | cons kv rest ih =>
    obtain ⟨k, v⟩ := kv
    simp only [checkStorage, storageErrors, storageEntryErrors]
    cases h : pyIntHex v with
    | none => rfl
    | some ev =>
      by_cases hm : intFromBytesBig (env.getStorageAt a k) = ev
      · simp [hm, ih]
      · simp [hm]

theorem checkAccount_eq_errors (env : Env) (a : String) (acct : Account) :
    checkAccount env a acct =
      match (accountErrors env a acct).head? with
      | none => .ok ()
      | some e => .error e := by
  simp only [checkAccount, accountErrors, balanceErrors, nonceErrors, codeErrors]
  cases hb : pyIntHex acct.balance with
  | none => rfl
  | some eb =>
    by_cases hbm : env.getBalance a = eb
    · cases hn : pyIntHex acct.nonce with
      | none => simp [hbm]
      | some en =>
        by_cases hnm : env.getTransactionCount a = en
        · cases hc : bytesFromHex (acct.code.drop 2) with
          | none => simp [hbm, hnm]
          | some ec =>
            by_cases hcm : env.getCode a = ec
            · simp [hbm, hnm, hcm, checkStorage_eq_errors]
            · simp [hbm, hnm, hcm]
        · simp [hbm, hnm]
    · simp [hbm]

/-- C1: for every postState and every account in it other than the system
address, if the live balance, nonce, code or any named storage slot
differs from the expected value, `check_post_state` fails with the error
carrying the address, the field, the expected and the actual value,
produced by the first mismatching field of the first mismatching account;
if no field of any account mismatches, it succeeds. -/
theorem check_post_state_first_mismatch (chk : String → String) (beacon : String)
    (env : Env) (ps : List (String × Account)) :
    check_post_state chk beacon env ps =
      match firstPostStateError chk beacon env ps with
      | none => .ok ()
      | some e => .error e := by
  induction ps with
  | nil => rfl
  | cons p rest ih =>
    obtain ⟨addr, acct⟩ := p
    simp only [check_post_state, firstPostStateError, List.filter_cons]
    by_cases hb : chk addr = chk beacon
    · simpa [hb] using ih
    · simp only [hb, decide_eq_true_eq, if_neg, Bool.not_false, decide_not]
      rw [checkAccount_eq_errors]
      cases he : (accountErrors env (chk addr) acct).head? with
      | none =>
        simpa [List.findSome?, hb, he] using ih
      | some e =>
        simp [List.findSome?, hb, he]

/-! ### Numeric comparison semantics (C2) and beacon-address skip (C3) -/

/-- An expected account with balance `0x64`, zero nonce, empty code and no
storage. -/
def acct64 : Account := ⟨"0x64", "0x0", "0x", []⟩

/-- An expected account with all-zero fields. -/
def acctZero : Account := ⟨"0x0", "0x0", "0x", []⟩

/-- A live environment where every account has balance 100, nonce 0, empty
code and zero storage. -/
def env100 : Env := ⟨fun _ => 100, fun _ => 0, fun _ => [], fun _ _ => []⟩

/-- A live environment where every account has balance 101, nonce 0, empty
code and zero storage. -/
def env101 : Env := ⟨fun _ => 101, fun _ => 0, fun _ => [], fun _ _ => []⟩

/-- C2: balance and nonce are compared as unsigned integers parsed from
their hex encodings and storage slots are compared by integer value, not
by string representation: expected balance `0x64` passes against a live
balance of 100, fails against 101 naming the balance field, and replacing
an expected balance or storage value by any other string denoting the same
integer leaves the verifier's behaviour unchanged. -/
theorem post_state_numeric_semantics :
    checkAccount env100 "0xc0de" acct64 = .ok () ∧
    checkAccount env101 "0xc0de" acct64 =
      .error (.stateMismatch "0xc0de" (.balance 100 101)) ∧
    (∀ (env : Env) (a : String) (acct : Account) (b : String) (n : Nat),
      pyIntHex acct.balance = some n → pyIntHex b = some n →
      checkAccount env a acct = checkAccount env a { acct with balance := b }) ∧
    (∀ (env : Env) (a k v w : String) (n : Nat) (rest : List (String × String)),
      pyIntHex v = some n → pyIntHex w = some n →
      checkStorage env a ((k, v) :: rest) = checkStorage env a ((k, w) :: rest)) := by
  refine ⟨rfl, rfl, ?_, ?_⟩
  · intro env a acct b n h1 h2
    obtain ⟨bal, non, cod, st⟩ := acct
    simp only [checkAccount] at h1 ⊢
    rw [h1, h2]
  · intro env a k v w n rest h1 h2
    simp only [checkStorage]
    rw [h1, h2]

theorem post_state_numeric_semantics_witness :
    pyIntHex "0x64" = some 100 ∧ pyIntHex "0x064" = some 100 ∧
    checkStorage env100 "0xc0de" [("0x0", "0x64")] =
      checkStorage env100 "0xc0de" [("0x0", "0x064")] :=
  ⟨by decide, by decide,
    post_state_numeric_semantics.2.2.2 env100 "0xc0de" "0x0" "0x64" "0x064" 100 []
      (by decide) (by decide)⟩

theorem checkStorage_env_congr (env env' : Env) (a : String)
    (hst : ∀ k, env.getStorageAt a k = env'.getStorageAt a k) :
    ∀ l, checkStorage env a l = checkStorage env' a l := by
  intro l
  induction l with
  | nil => rfl
  | cons kv rest ih =>
    obtain ⟨k, v⟩ := kv
    simp only [checkStorage, hst, ih]

theorem checkAccount_env_congr (env env' : Env) (a : String)
    (hb : env.getBalance a = env'.getBalance a)
    (hn : env.getTransactionCount a = env'.getTransactionCount a)
    (hc : env.getCode a = env'.getCode a)
    (hst : ∀ k, env.getStorageAt a k = env'.getStorageAt a k)
    (acct : Account) :
    checkAccount env a acct = checkAccount env' a acct := by
  simp only [checkAccount, hb, hn, hc, checkStorage_env_congr env env' a hst]

/-- C3: the verifier never compares the account recorded under the beacon
root address: for two postStates that agree except on entries whose
checksummed address equals the checksummed beacon address, and two live
environments that agree on every address other than the checksummed beacon
address, verification produces the same outcome. -/
theorem check_post_state_skips_beacon (chk : String → String) (beacon : String)
    (env env' : Env) (ps ps' : List (String × Account))
    (hps : List.Forall₂
      (fun p q => p.1 = q.1 ∧ (chk p.1 ≠ chk beacon → p.2 = q.2)) ps ps')
    (henv : ∀ a, a ≠ chk beacon →
      env.getBalance a = env'.getBalance a ∧
      env.getTransactionCount a = env'.getTransactionCount a ∧
      env.getCode a = env'.getCode a ∧
      ∀ k, env.getStorageAt a k = env'.getStorageAt a k) :
    check_post_state chk beacon env ps = check_post_state chk beacon env' ps' := by
  induction hps with
  | nil => rfl
  | @cons p q l l' hpq htail ih =>
    obtain ⟨addr, acct⟩ := p
    obtain ⟨addr2, acct2⟩ := q
    obtain ⟨haddr, hacct⟩ := hpq
    dsimp only at haddr hacct
    subst haddr
    simp only [check_post_state]
    by_cases hbeac : chk addr = chk beacon
    · simp only [hbeac, if_pos rfl]
      exact ih
    · obtain ⟨hb, hn, hc, hst⟩ := henv (chk addr) hbeac
      rw [if_neg hbeac, if_neg hbeac, ← hacct hbeac,
        checkAccount_env_congr env env' (chk addr) hb hn hc hst acct]
      cases checkAccount env' (chk addr) acct with
      | ok _ => exact ih
      | error e => rfl

theorem check_post_state_skips_beacon_witness :
    check_post_state id "0xbeac" env100 [("0xbeac", acct64)] =
      check_post_state id "0xbeac" env100 [("0xbeac", acctZero)] :=
  check_post_state_skips_beacon id "0xbeac" env100 env100
    [("0xbeac", acct64)] [("0xbeac", acctZero)]
    (List.Forall₂.cons ⟨rfl, fun h => absurd rfl h⟩ List.Forall₂.nil)
    (fun _ _ => ⟨rfl, rfl, rfl, fun _ => rfl⟩)

/-! ### Transaction replay (the loop in `main`)

`main` raises `ValueError("Could not find transaction in test data")` when
the decoded block has no transactions, and otherwise, for each transaction
in block order, sends it (`send_transaction`, i.e.
`w3.eth.send_raw_transaction(tx.encode()).hex()`), waits for its receipt,
and records its hash.  The interaction with the node is modelled as an
event trace: each loop iteration appends a `submit` event followed by a
`confirm` event for the hash the node returned. -/

/-- An observable interaction of the replay loop with the node: submitting
a transaction (obtaining its hash) or completing the wait for its
receipt. -/
inductive ReplayEvent (Tx : Type) where
  | submit (tx : Tx) (hash : String)
  | confirm (hash : String)
deriving DecidableEq

/-- The error raised by `main` when the decoded block has no
transactions. -/
inductive ReplayError where
  | emptyBlock
deriving DecidableEq

/-- `send_transaction`: submit the encoded transaction, yielding its hash.
`sendRaw` stands for `w3.eth.send_raw_transaction(_).hex()`. -/
def send_transaction {Tx : Type} (sendRaw : List Nat → String) (encode : Tx → List Nat)
    (tx : Tx) : String :=
  sendRaw (encode tx)

/-- The `for tx in block["transactions"]` loop of `main`: send, wait for
the receipt, append the hash; returns the event trace and the recorded
hashes. -/
def replayTxs {Tx : Type} (sendRaw : List Nat → String) (encode : Tx → List Nat) :
    List Tx → List (ReplayEvent Tx) × List String
  | [] => ([], [])
  | t :: ts =>
    let h := send_transaction sendRaw encode t
    let rest := replayTxs sendRaw encode ts
    (.submit t h :: .confirm h :: rest.1, h :: rest.2)

/-- The transaction-sending section of `main`: raise when the block has no
transactions, otherwise run the replay loop. -/
def runTransactions {Tx : Type} (sendRaw : List Nat → String) (encode : Tx → List Nat)
    (txs : List Tx) : List (ReplayEvent Tx) × Except ReplayError (List String) :=
  if txs.length = 0 then ([], .error .emptyBlock)
  else ((replayTxs sendRaw encode txs).1, .ok (replayTxs sendRaw encode txs).2)

theorem replayTxs_events {Tx : Type} (sendRaw : List Nat → String) (encode : Tx → List Nat)
    (txs : List Tx) :
    ∀ i (h : i < txs.length),
      (replayTxs sendRaw encode txs).1.get? (2 * i) =
        some (.submit (txs.get ⟨i, h⟩) (send_transaction sendRaw encode (txs.get ⟨i, h⟩))) ∧
      (replayTxs sendRaw encode txs).1.get? (2 * i + 1) =
        some (.confirm (send_transaction sendRaw encode (txs.get ⟨i, h⟩))) := by
  induction txs with
  | nil => intro i h; exact absurd h (by simp)
  | cons t ts ih =>
    intro i h
    cases i with
    | zero => exact ⟨rfl, rfl⟩
    | succ j =>
      have hj : j < ts.length := Nat.lt_of_succ_lt_succ h
      have := ih j hj
      constructor
      · simpa [replayTxs, Nat.mul_succ, Nat.add_comm, List.get?] using this.1
      · simpa [replayTxs, Nat.mul_succ, Nat.add_comm, List.get?] using this.2

theorem replayTxs_hashes {Tx : Type} (sendRaw : List Nat → String) (encode : Tx → List Nat)
    (txs : List Tx) :
    (replayTxs sendRaw encode txs).2 = txs.map (send_transaction sendRaw encode) ∧
    (replayTxs sendRaw encode txs).1.length = 2 * txs.length := by
  induction txs with
  | nil => exact ⟨rfl, rfl⟩
  | cons t ts ih =>
    refine ⟨?_, ?_⟩
    · simp [replayTxs, ih.1]
    · simp [replayTxs, ih.2, Nat.mul_succ]

/-- C4: replay is strictly sequential in list order: in the observed event
trace, the submission of transaction `i` sits at position `2*i` and its
confirmation at position `2*i + 1` — so the confirmation of transaction
`i` precedes the submission of transaction `i+1` — and the recorded
hashes are exactly the per-transaction hashes in submission order. -/
theorem replay_strictly_sequential {Tx : Type} (sendRaw : List Nat → String)
    (encode : Tx → List Nat) (txs : List Tx) (i : Nat) (h : i < txs.length) :
    (runTransactions sendRaw encode txs).1.get? (2 * i) =
      some (.submit (txs.get ⟨i, h⟩) (send_transaction sendRaw encode (txs.get ⟨i, h⟩))) ∧
    (runTransactions sendRaw encode txs).1.get? (2 * i + 1) =
      some (.confirm (send_transaction sendRaw encode (txs.get ⟨i, h⟩))) ∧
    (runTransactions sendRaw encode txs).2 =
      .ok (txs.map (send_transaction sendRaw encode)) ∧
    (runTransactions sendRaw encode txs).1.length = 2 * txs.length := by
  have hne : txs.length ≠ 0 := by
    intro h0
    rw [h0] at h
    exact absurd h (by simp)
  have hev := replayTxs_events sendRaw encode txs i h
  have hh := replayTxs_hashes sendRaw encode txs
  simp only [runTransactions, if_neg hne]
  exact ⟨hev.1, hev.2, by rw [hh.1], hh.2⟩

theorem replay_strictly_sequential_witness :
    (runTransactions (fun bs => "0x" ++ String.mk (bs.map (fun _ => 'f'))) (fun t => [t])
        [(1 : Nat), 2]).1.get? 2 =
      some (.submit 2 "0xf") ∧
    (runTransactions (fun bs => "0x" ++ String.mk (bs.map (fun _ => 'f'))) (fun t => [t])
        [(1 : Nat), 2]).1.get? 3 =
      some (.confirm "0xf") ∧
    (runTransactions (fun bs => "0x" ++ String.mk (bs.map (fun _ => 'f'))) (fun t => [t])
        [(1 : Nat), 2]).2 = .ok ["0xf", "0xf"] ∧
    (runTransactions (fun bs => "0x" ++ String.mk (bs.map (fun _ => 'f'))) (fun t => [t])
        [(1 : Nat), 2]).1.length = 4 :=
  replay_strictly_sequential (fun bs => "0x" ++ String.mk (bs.map (fun _ => 'f')))
    (fun t => [t]) [1, 2] 1 (by decide)

/-- C5: a decoded block with an empty transaction list makes `main` fail
with the empty-block error, with no transaction submitted (the event trace
is empty). -/
theorem replay_empty_block {Tx : Type} (sendRaw : List Nat → String)
    (encode : Tx → List Nat) :
    runTransactions sendRaw encode ([] : List Tx) = ([], .error .emptyBlock) :=
  rfl

/-! ### Test-vector lookup (`get_test_file`)

The corpus directory is a list of `(file name, raw contents)` pairs (the
order of `os.listdir` is arbitrary and fixed by the list); `parse` stands
for `json.loads` composed with `read_text`.  Python's substring test
`needle in hay` is `strContains hay needle`. -/

def containsSub (needle : List Char) : List Char → Bool
  | [] => needle.isEmpty
  | h :: t => needle.isPrefixOf (h :: t) || containsSub needle t

/-- Python's `needle in hay` substring test on strings. -/
def strContains (hay needle : String) : Bool :=
  containsSub needle.data hay.data

/-- The three `ValueError`s of `get_test_file`, named as in the spec:
`invalidName` (name longer than 255 characters, no match), `notFound`
(no match, or several matches despite a folder disambiguator) and
`ambiguous` (several matches, no disambiguator). -/
inductive LookupError where
  | invalidName
  | notFound
  | ambiguous
deriving DecidableEq

/-- Whether a corpus file name matches: `TEST_NAME in file_name and
TEST_PARENT_FOLDER in file_name`. -/
def matchesTest (testName testFolder fileName : String) : Bool :=
  strContains fileName testName && strContains fileName testFolder

/-- `get_test_file`: filter the directory listing by the substring match,
then branch on the number of matches exactly as the Python does
(`len == 0` first, then `len > 1`, else parse the single match). -/
def get_test_file {α : Type} (testName testFolder : String)
    (dir : List (String × String)) (parse : String → α) : Except LookupError α :=
  let tests := dir.filter (fun f => matchesTest testName testFolder f.1)
  match tests with
  | [] =>
    if testName.length > 255 then .error .invalidName else .error .notFound
  | [f] => .ok (parse f.2)
  | _ :: _ :: _ =>
    if testFolder = "" then .error .ambiguous else .error .notFound

/-- C7: when exactly one corpus file matches the target name and folder
disambiguator, loading succeeds and returns that file's contents, parsed,
unchanged. -/
theorem get_test_file_unique {α : Type} (testName testFolder : String)
    (dir : List (String × String)) (parse : String → α) (f : String × String)
    (h : dir.filter (fun g => matchesTest testName testFolder g.1) = [f]) :
    get_test_file testName testFolder dir parse = .ok (parse f.2) := by
  simp only [get_test_file, h]

theorem get_test_file_unique_witness :
    List.filter (fun g => matchesTest "add" "vm" g.1)
        [("x_mul_x", "junk"), ("vm_add_1", "payload"), ("sub", "junk2")] =
      [("vm_add_1", "payload")] ∧
    get_test_file "add" "vm" [("x_mul_x", "junk"), ("vm_add_1", "payload"), ("sub", "junk2")]
        (fun s => s ++ "!") = .ok "payload!" :=
  ⟨by decide,
    get_test_file_unique "add" "vm"
      [("x_mul_x", "junk"), ("vm_add_1", "payload"), ("sub", "junk2")]
      (fun s => s ++ "!") ("vm_add_1", "payload") (by decide)⟩

/-- C8: when no corpus file matches, loading fails with the not-found
error, except that a target name longer than 255 characters fails with the
invalid-name error instead. -/
theorem get_test_file_no_match {α : Type} (testName testFolder : String)
    (dir : List (String × String)) (parse : String → α)
    (h : dir.filter (fun g => matchesTest testName testFolder g.1) = []) :
    get_test_file testName testFolder dir parse =
      .error (if testName.length > 255 then .invalidName else .notFound) := by
  simp only [get_test_file, h]
  by_cases hlen : testName.length > 255
  · simp [hlen]
  · simp [hlen]

/-- C9: when two or more corpus files match, loading fails with the
ambiguity error when no folder disambiguator was supplied (it is the empty
string) and with the not-found error otherwise. -/
theorem get_test_file_many_matches {α : Type} (testName testFolder : String)
    (dir : List (String × String)) (parse : String → α)
    (h : 2 ≤ (dir.filter (fun g => matchesTest testName testFolder g.1)).length) :
    get_test_file testName testFolder dir parse =
      .error (if testFolder = "" then .ambiguous else .notFound) := by
  simp only [get_test_file]
  cases hf : dir.filter (fun g => matchesTest testName testFolder g.1) with
  | nil => rw [hf] at h; exact absurd h (by simp)
  | cons a rest =>
    cases rest with
    | nil => rw [hf] at h; exact absurd h (by simp)
    | cons b rest2 =>
      by_cases hfold : testFolder = ""
      · simp [hfold]
      · simp [hfold]

theorem get_test_file_no_match_witness :
    List.filter (fun g => matchesTest "zzz" "" g.1) [("abc", "c")] = [] ∧
    get_test_file "zzz" "" [("abc", "c")] (fun s => s) = .error .notFound := by
  refine ⟨by decide, ?_⟩
  have h := get_test_file_no_match "zzz" "" [("abc", "c")] (fun s => s) (by decide)
  rwa [if_neg (by decide : ¬ (255 < "zzz".length))] at h

theorem get_test_file_many_matches_witness :
    2 ≤ (List.filter (fun g => matchesTest "a" "" g.1) [("ab", "1"), ("ac", "2")]).length ∧
    get_test_file "a" "" [("ab", "1"), ("ac", "2")] (fun s => s) = .error .ambiguous := by
  refine ⟨by decide, ?_⟩
  have h := get_test_file_many_matches "a" "" [("ab", "1"), ("ac", "2")] (fun s => s) (by decide)
  rwa [if_pos rfl] at h

/-- The 256-character test name used to witness the long-name behaviour of
`get_test_file`. -/
def longName256 : String := String.mk (List.replicate 256 'a')

/-- C10: the 255-character bound on the test name is only consulted in the
zero-match branch: a name longer than 255 characters whose corpus match is
unique still loads successfully, returning the single file's parsed
contents. -/
theorem get_test_file_long_name_unique {α : Type} (testName testFolder : String)
    (dir : List (String × String)) (parse : String → α) (f : String × String)
    (_hlen : testName.length > 255)
    (h : dir.filter (fun g => matchesTest testName testFolder g.1) = [f]) :
    get_test_file testName testFolder dir parse = .ok (parse f.2) := by
  simp only [get_test_file, h]

set_option maxRecDepth 100000 in
theorem get_test_file_long_name_unique_witness :
    longName256.length > 255 ∧
    List.filter (fun g => matchesTest longName256 "" g.1) [(longName256, "c")] =
      [(longName256, "c")] ∧
    get_test_file longName256 "" [(longName256, "c")] (fun s => s) = .ok "c" :=
  ⟨by decide, by decide,
    get_test_file_long_name_unique longName256 "" [(longName256, "c")] (fun s => s)
      (longName256, "c") (by decide) (by decide)⟩

/-! ### Pre-state seeding (`set_pre_state`)

Each storage key and value is re-encoded by `f"0x{int(k, 16):064x}"`: its
integer value printed as lowercase hex, left-padded with zeros to (at
least) 64 digits, behind a `0x` prefix. -/

def hexDigitChar (d : Nat) : Char :=
  if d < 10 then Char.ofNat ('0'.toNat + d) else Char.ofNat ('a'.toNat + (d - 10))

/-- The characters of Python's `"%x" % n` (lowercase, no prefix, `"0"` for
zero). -/
def pythonHexChars (n : Nat) : List Char :=
  if n = 0 then ['0'] else ((Nat.digits 16 n).map hexDigitChar).reverse

/-- Left-pad with `'0'` to width 64, as the format width `064` does. -/
def pad64 (cs : List Char) : List Char :=
  List.replicate (64 - cs.length) '0' ++ cs

/-- `f"0x{n:064x}"`. -/
def formatWord64 (n : Nat) : String :=
  String.mk ('0' :: 'x' :: pad64 (pythonHexChars n))

/-- An account of the `pre` mapping: code, balance and nonce are passed on
to the node verbatim; storage entries are re-encoded. -/
structure PreAccount where
  code : String
  balance : String
  nonce : String
  storage : List (String × String)
deriving DecidableEq

/-- One administrative RPC request issued through
`w3.provider.make_request`. -/
structure RpcCall where
  method : String
  params : List String
deriving DecidableEq

/-- The storage loop of `set_pre_state` for one account: one
`anvil_setStorageAt` call per slot, key and value re-encoded; `none` when
`int(_, 16)` raises on a key or value. -/
def accountStorageCalls (address : String) : List (String × String) → Option (List RpcCall)
  | [] => some []
  | (k, v) :: rest =>
    match pyIntHex k, pyIntHex v, accountStorageCalls address rest with
    | some nk, some nv, some calls =>
      some (⟨"anvil_setStorageAt", [address, formatWord64 nk, formatWord64 nv]⟩ :: calls)
    | _, _, _ => none

/-- The calls issued by `set_pre_state` for one `pre` account, in program
order. -/
def accountCalls (address : String) (acct : PreAccount) : Option (List RpcCall) :=
  (accountStorageCalls address acct.storage).map (fun st =>
    ⟨"anvil_setCode", [address, acct.code]⟩ ::
    ⟨"anvil_setBalance", [address, acct.balance]⟩ ::
    ⟨"anvil_setNonce", [address, acct.nonce]⟩ :: st)

/-- `set_pre_state`: the full call sequence over the `pre` mapping in its
stored order. -/
def set_pre_state : List (String × PreAccount) → Option (List RpcCall)
  | [] => some []
  | (a, acct) :: rest =>
    match accountCalls a acct, set_pre_state rest with
    | some c1, some c2 => some (c1 ++ c2)
    | _, _ => none

theorem hexDigitVal_hexDigitChar : ∀ d, d < 16 → hexDigitVal (hexDigitChar d) = some d := by
  decide

theorem parseHexAux_zeros (j : Nat) (cs : List Char) :
    parseHexAux 0 (List.replicate j '0' ++ cs) = parseHexAux 0 cs := by
  have h0 : hexDigitVal '0' = some 0 := by decide
  induction j with
  | zero => rfl
  | succ i ih =>
    simp only [List.replicate_succ, List.cons_append, parseHexAux, h0]
    simpa using ih

theorem parseHexAux_digits (l : List Nat) (hl : ∀ d ∈ l, d < 16) (a : Nat) :
    parseHexAux a ((l.map hexDigitChar).reverse) =
      some (a * 16 ^ l.length + Nat.ofDigits 16 l) := by
  induction l using List.reverseRecOn generalizing a with
  | nil => simp [parseHexAux, Nat.ofDigits_nil]
  | append_singleton l d ih =>
    have hd : d < 16 := hl d (by simp)
    have hl' : ∀ x ∈ l, x < 16 := fun x hx => hl x (by simp [hx])
    simp only [List.map_append, List.map_cons, List.map_nil, List.reverse_append,
      List.reverse_cons, List.reverse_nil, List.nil_append, List.cons_append,
      parseHexAux, hexDigitVal_hexDigitChar d hd]
    rw [ih hl' (16 * a + d)]
    congr 1
    rw [Nat.ofDigits_append, Nat.ofDigits_singleton, List.length_append,
      List.length_cons, List.length_nil]
    ring

theorem pythonHexChars_ne_nil (n : Nat) : pythonHexChars n ≠ [] := by
  unfold pythonHexChars
  by_cases h : n = 0
  · simp [h]
  · rw [if_neg h]
    simp only [ne_eq, List.reverse_eq_nil_iff, List.map_eq_nil_iff]
    exact Nat.digits_ne_nil_iff_ne_zero.mpr h

theorem parseHexAux_pythonHexChars (n : Nat) :
    parseHexAux 0 (pythonHexChars n) = some n := by
  by_cases h : n = 0
  · subst h; decide
  · unfold pythonHexChars
    rw [if_neg h, parseHexAux_digits (Nat.digits 16 n)
      (fun d hd => Nat.digits_lt_base (by norm_num) hd) 0]
    simp [Nat.ofDigits_digits]

theorem pyIntHexBody_of_ne_nil (cs : List Char) (h : cs ≠ []) :
    pyIntHexBody cs = parseHexAux 0 cs := by
  rw [pyIntHexBody, if_neg]
  simp [h]

theorem pyIntHex_mk_0x (cs : List Char) :
    pyIntHex (String.mk ('0' :: 'x' :: cs)) = pyIntHexBody cs := by
  have htake : (String.mk ('0' :: 'x' :: cs)).data.take 2 = ['0', 'x'] := rfl
  have hdrop : (String.mk ('0' :: 'x' :: cs)).data.drop 2 = cs := rfl
  rw [pyIntHex, if_pos (Or.inl htake), hdrop]

theorem pad64_ne_nil (cs : List Char) (h : cs ≠ []) : pad64 cs ≠ [] := by
  intro hc
  rw [pad64] at hc
  exact h (List.append_eq_nil.mp hc).2

/-- The encoded word round-trips: `int(f"0x{n:064x}", 16) == n`. -/
theorem pyIntHex_formatWord64 (n : Nat) : pyIntHex (formatWord64 n) = some n := by
  rw [formatWord64, pyIntHex_mk_0x,
    pyIntHexBody_of_ne_nil _ (pad64_ne_nil _ (pythonHexChars_ne_nil n)),
    pad64, parseHexAux_zeros, parseHexAux_pythonHexChars]

theorem pythonHexChars_length_le (n : Nat) (h : n < 2 ^ 256) :
    (pythonHexChars n).length ≤ 64 := by
  unfold pythonHexChars
  by_cases h0 : n = 0
  · simp [h0]
  · rw [if_neg h0]
    simp only [List.length_reverse, List.length_map]
    rw [Nat.digits_len 16 n (by norm_num) h0]
    have h16 : n < 16 ^ 64 := by
      have : (16 : Nat) ^ 64 = 2 ^ 256 := by norm_num
      omega
    have := Nat.log_lt_of_lt_pow h0 h16
    omega

/-- The encoded word is exactly 66 characters (`0x` plus 64 hex digits)
whenever the value fits in 256 bits. -/
theorem formatWord64_length (n : Nat) (h : n < 2 ^ 256) :
    (formatWord64 n).length = 66 := by
  have hle := pythonHexChars_length_le n h
  show ('0' :: 'x' :: pad64 (pythonHexChars n)).length = 66
  simp only [List.length_cons, pad64, List.length_append, List.length_replicate]
  omega

/-- C6: for every `pre` account storage entry `(k, v)` whose key and value
parse, the seeder issues `anvil_setStorageAt` with the key and the value
each re-encoded as a fixed-width 32-byte (66 characters: `0x` plus 64 hex
digits) big-endian hex string of the same integer — independent of the
input's leading-zero padding, so two entries denoting the same integers
produce identical encoded arguments. -/
theorem seeder_storage_word_encoding (address k v : String) (n m : Nat)
    (rest : List (String × String)) (restCalls : List RpcCall)
    (hk : pyIntHex k = some n) (hv : pyIntHex v = some m)
    (hrest : accountStorageCalls address rest = some restCalls)
    (hn : n < 2 ^ 256) (hm : m < 2 ^ 256) :
    accountStorageCalls address ((k, v) :: rest) =
      some (⟨"anvil_setStorageAt", [address, formatWord64 n, formatWord64 m]⟩ :: restCalls) ∧
    (formatWord64 n).length = 66 ∧ (formatWord64 m).length = 66 ∧
    (formatWord64 n).data.take 2 = ['0', 'x'] ∧
    pyIntHex (formatWord64 n) = some n ∧ pyIntHex (formatWord64 m) = some m ∧
    (∀ k2 v2 : String, pyIntHex k2 = some n → pyIntHex v2 = some m →
      accountStorageCalls address ((k2, v2) :: rest) =
        accountStorageCalls address ((k, v) :: rest)) := by
  refine ⟨?_, formatWord64_length n hn, formatWord64_length m hm, rfl,
    pyIntHex_formatWord64 n, pyIntHex_formatWord64 m, ?_⟩
  · simp [accountStorageCalls, hk, hv, hrest]
  · intro k2 v2 hk2 hv2
    simp [accountStorageCalls, hk, hv, hk2, hv2, hrest]

theorem seeder_storage_word_encoding_witness :
    pyIntHex "0x1" = some 1 ∧ pyIntHex "0x02" = some 2 ∧
    accountStorageCalls "0xa" [("0x1", "0x02")] =
      some [⟨"anvil_setStorageAt", ["0xa", formatWord64 1, formatWord64 2]⟩] ∧
    (formatWord64 1).length = 66 ∧ pyIntHex (formatWord64 1) = some 1 := by
  have h := seeder_storage_word_encoding "0xa" "0x1" "0x02" 1 2 [] []
    (by decide) (by decide) rfl (by norm_num) (by norm_num)
  exact ⟨by decide, by decide, h.1, h.2.1, h.2.2.2.2.1⟩

end KakarotDebug
